import Mathlib

/-!
Verification of the Finnish-Charger-On-Board ingestion pipeline.

The development shallowly embeds the two core scripts:
  * `scripts/fetch_afir.py` — the cursor-paginated fetcher `fetch_all_geojson`;
  * `fin-ev-dashboard/scripts/build_dataset.py` — `extract_features`,
    `flatten_locations`, `flatten_statuses` and the left merge / CSV snapshot.

JSON values are modelled by the inductive type `Json`.  Python dictionaries
are association lists (JSON objects never carry duplicate keys after
`json.loads`); Python `None` is `Json.null`; Python truthiness is `truthy`.
Code that can raise a Python exception is modelled in the `Except String`
monad; the error string names the exception class the interpreter would
raise at that point.
-/

inductive Json where
  | null : Json
  | bool : Bool → Json
  | num : Rat → Json
  | str : String → Json
  | arr : List Json → Json
  | obj : List (String × Json) → Json
deriving Repr

mutual

/-- Boolean structural equality on `Json` values. -/
def Json.beq : Json → Json → Bool
  | .null, .null => true
  | .bool x, .bool y => x == y
  | .num x, .num y => x == y
  | .str x, .str y => x == y
  | .arr xs, .arr ys => Json.beqList xs ys
  | .obj xs, .obj ys => Json.beqFields xs ys
  | _, _ => false

/-- Boolean equality on lists of `Json` values. -/
def Json.beqList : List Json → List Json → Bool
  | [], [] => true
  | x :: xs, y :: ys => Json.beq x y && Json.beqList xs ys
  | _, _ => false

/-- Boolean equality on object field lists. -/
def Json.beqFields : List (String × Json) → List (String × Json) → Bool
  | [], [] => true
  | (k1, v1) :: xs, (k2, v2) :: ys => k1 == k2 && Json.beq v1 v2 && Json.beqFields xs ys
  | _, _ => false

end

mutual

theorem Json.beq_iff : ∀ a b : Json, Json.beq a b = true ↔ a = b
  | .null, .null => by simp [Json.beq]
  | .null, .bool _ => by simp [Json.beq]
  | .null, .num _ => by simp [Json.beq]
  | .null, .str _ => by simp [Json.beq]
  | .null, .arr _ => by simp [Json.beq]
  | .null, .obj _ => by simp [Json.beq]
  | .bool _, .null => by simp [Json.beq]
  | .bool x, .bool y => by simp [Json.beq]
  | .bool _, .num _ => by simp [Json.beq]
  | .bool _, .str _ => by simp [Json.beq]
  | .bool _, .arr _ => by simp [Json.beq]
  | .bool _, .obj _ => by simp [Json.beq]
  | .num _, .null => by simp [Json.beq]
  | .num _, .bool _ => by simp [Json.beq]
  | .num x, .num y => by simp [Json.beq]
  | .num _, .str _ => by simp [Json.beq]
  | .num _, .arr _ => by simp [Json.beq]
  | .num _, .obj _ => by simp [Json.beq]
  | .str _, .null => by simp [Json.beq]
  | .str _, .bool _ => by simp [Json.beq]
  | .str _, .num _ => by simp [Json.beq]
  | .str x, .str y => by simp [Json.beq]
  | .str _, .arr _ => by simp [Json.beq]
  | .str _, .obj _ => by simp [Json.beq]
  | .arr _, .null => by simp [Json.beq]
  | .arr _, .bool _ => by simp [Json.beq]
  | .arr _, .num _ => by simp [Json.beq]
  | .arr _, .str _ => by simp [Json.beq]
  | .arr xs, .arr ys => by
      simp [Json.beq, Json.beqList_iff xs ys]
  | .arr _, .obj _ => by simp [Json.beq]
  | .obj _, .null => by simp [Json.beq]
  | .obj _, .bool _ => by simp [Json.beq]
  | .obj _, .num _ => by simp [Json.beq]
  | .obj _, .str _ => by simp [Json.beq]
  | .obj _, .arr _ => by simp [Json.beq]
  | .obj xs, .obj ys => by
      simp [Json.beq, Json.beqFields_iff xs ys]

theorem Json.beqList_iff : ∀ xs ys : List Json, Json.beqList xs ys = true ↔ xs = ys
  | [], [] => by simp [Json.beqList]
  | [], _ :: _ => by simp [Json.beqList]
  | _ :: _, [] => by simp [Json.beqList]
  | x :: xs, y :: ys => by
      simp [Json.beqList, Json.beq_iff x y, Json.beqList_iff xs ys]

theorem Json.beqFields_iff :
    ∀ xs ys : List (String × Json), Json.beqFields xs ys = true ↔ xs = ys
  | [], [] => by simp [Json.beqFields]
  | [], _ :: _ => by simp [Json.beqFields]
  | _ :: _, [] => by simp [Json.beqFields]
  | (k1, v1) :: xs, (k2, v2) :: ys => by
      simp [Json.beqFields, Json.beq_iff v1 v2, Json.beqFields_iff xs ys, and_assoc]

end

instance : DecidableEq Json := fun a b => decidable_of_iff _ (Json.beq_iff a b)

/-- Python truthiness of a JSON value (`bool(x)`): `None`, `False`, `0`, `""`,
`[]` and `{}` are falsy, everything else is truthy. -/
def truthy : Json → Bool
  | Json.null => false
  | Json.bool b => b
  | Json.num q => decide (q ≠ 0)
  | Json.str s => decide (s ≠ "")
  | Json.arr xs => decide (xs ≠ [])
  | Json.obj fs => decide (fs ≠ [])

/-- Key lookup in an object field list (Python `k in d` / `d[k]`; dictionaries
produced by `json.loads` have no duplicate keys). -/
def jsonLookup : List (String × Json) → String → Option Json
  | [], _ => none
  | (k, v) :: fs, key => if k = key then some v else jsonLookup fs key

/-- Python `k in d`. -/
def hasKey (fs : List (String × Json)) (key : String) : Bool :=
  (jsonLookup fs key).isSome

/-- Python `d.get(k)`: the stored value, or `None` when the key is absent. -/
def pyGet (fs : List (String × Json)) (key : String) : Json :=
  (jsonLookup fs key).getD Json.null

/-- Python `a or b` on values: `a` when truthy, else `b`. -/
def pyOr (a b : Json) : Json :=
  if truthy a then a else b

/-- Test for the Python `None` value (what `DataFrame.dropna` treats as
missing in this pipeline: the JSON inputs contain no NaN). -/
def Json.isNull : Json → Bool
  | Json.null => true
  | _ => false

/-- Two-digit lowercase hex rendering of a byte-sized number, used for the
`\u00XX` escapes that `json.dumps` emits for control characters. -/
def hexDigit (n : Nat) : Char :=
  if n < 10 then Char.ofNat (48 + n) else Char.ofNat (87 + n)

/-- String-content escaping of one character, as done by `json.dumps` with
`ensure_ascii=False`. -/
def jsonEscapeChar (c : Char) : String :=
  if c = '"' then "\\\""
  else if c = '\\' then "\\\\"
  else if c = '\n' then "\\n"
  else if c = '\r' then "\\r"
  else if c = '\t' then "\\t"
  else if c.toNat < 32 then
    String.mk ['\\', 'u', '0', '0', hexDigit (c.toNat / 16), hexDigit (c.toNat % 16)]
  else String.mk [c]

/-- Serialization of a JSON string literal. -/
def dumpsString (s : String) : String :=
  "\"" ++ String.join (s.data.map jsonEscapeChar) ++ "\""

mutual

/-- Model of Python `json.dumps(v, ensure_ascii=False)` (default separators).
No claim inspects the serialized text; the model only has to be a total
function of the value. -/
def Json.dumps : Json → String
  | .null => "null"
  | .bool true => "true"
  | .bool false => "false"
  | .num q => toString q
  | .str s => dumpsString s
  | .arr xs => "[" ++ Json.dumpsList xs ++ "]"
  | .obj fs => "\x7b" ++ Json.dumpsFields fs ++ "\x7d"

/-- Comma-separated serialization of array elements. -/
def Json.dumpsList : List Json → String
  | [] => ""
  | [x] => Json.dumps x
  | x :: xs => Json.dumps x ++ ", " ++ Json.dumpsList xs

/-- Comma-separated serialization of object fields. -/
def Json.dumpsFields : List (String × Json) → String
  | [] => ""
  | [(k, v)] => dumpsString k ++ ": " ++ Json.dumps v
  | (k, v) :: fs => dumpsString k ++ ": " ++ Json.dumps v ++ ", " ++ Json.dumpsFields fs

end

/-!
Embedding of `fin-ev-dashboard/scripts/build_dataset.py`.
-/

/-- Model of `extract_features(data)` (build_dataset.py lines 12-17).  The
Python function returns `data.get("features") or []` for a dict containing
the key, the list itself for a list, and `[]` otherwise; it can return a
non-list value when `features` holds a truthy non-list, so the result type
is `Json`. -/
def extract_features (data : Json) : Json :=
  match data with
  | Json.obj fs =>
      if hasKey fs "features" then pyOr (pyGet fs "features") (Json.arr [])
      else Json.arr []
  | Json.arr xs => Json.arr xs
  | _ => Json.arr []

/-- Identifier resolution shared by both flatteners (build_dataset.py lines
27 and 57): `props.get("id") or props.get("locationId") or
props.get("stationId")`. -/
def resolveId (props : List (String × Json)) : Json :=
  pyOr (pyGet props "id") (pyOr (pyGet props "locationId") (pyGet props "stationId"))

/-- Model of `(f.get(key) or {}) if isinstance(f, dict) else {}`
(build_dataset.py lines 22-23).  The result is the stored value when that
value is truthy (possibly not a dict), else `{}`. -/
def subMapping (f : Json) (key : String) : Json :=
  match f with
  | Json.obj fs => pyOr (pyGet fs key) (Json.obj [])
  | _ => Json.obj []

/-- Model of `m.get(k)` where `m` may not be a dict: Python raises
`AttributeError` on a non-dict receiver. -/
def getOnMapping (m : Json) (key : String) : Except String Json :=
  match m with
  | Json.obj fs => Except.ok (pyGet fs key)
  | _ => Except.error "AttributeError: get"

/-- One flat location row (the dict built at build_dataset.py lines 29-38). -/
structure LocRow where
  id : Json
  name : Json
  operator : Json
  city : Json
  address : Json
  lat : Json
  lon : Json
  raw_properties : String
deriving DecidableEq, Repr

/-- Coordinate-pair computation of the location flattener
(build_dataset.py lines 23-25): `geom.get("coordinates")` raises
`AttributeError` when the stored `geometry` is truthy but not a dict, the
`or [None, None]` default replaces a falsy value, and the list
concatenation raises `TypeError` when the value is truthy but not a
list. -/
def coordsOf (f : Json) : Except String (List Json) := do
  let coordsRaw ← getOnMapping (subMapping f "geometry") "coordinates"
  match pyOr coordsRaw (Json.arr [Json.null, Json.null]) with
  | Json.arr xs => Except.ok xs
  | _ => Except.error "TypeError: can only concatenate list"

/-- Properties of a location feature as a dict (build_dataset.py line 22
plus the `props.get` calls of lines 27-34, which raise `AttributeError`
when the stored `properties` is truthy but not a dict). -/
def propsOf (f : Json) : Except String (List (String × Json)) :=
  match subMapping f "properties" with
  | Json.obj ps => Except.ok ps
  | _ => Except.error "AttributeError: get"

/-- The row dict built at build_dataset.py lines 29-38 from the properties
dict and the raw coordinate list, after padding with two nulls and keeping
the first two entries `lon, lat`. -/
def mkLocRow (props : List (String × Json)) (coords : List Json) : LocRow :=
  let padded := (coords ++ [Json.null, Json.null]).take 2
  { id := resolveId props
    name := pyGet props "name"
    operator := pyOr (pyGet props "operatorName") (pyGet props "operator")
    city := pyGet props "city"
    address := pyOr (pyGet props "address") (pyGet props "streetAddress")
    lat := padded.getD 1 Json.null
    lon := padded.getD 0 Json.null
    raw_properties := Json.dumps (Json.obj props) }

/-- Flattening of a single raw location feature (the body of the loop in
`flatten_locations`, build_dataset.py lines 21-38).  Python exceptions are
modelled as `Except.error`, raised in source order: the coordinate
computation of line 25 raises before the `props.get` calls of lines
27-34. -/
def flattenLocFeature (f : Json) : Except String LocRow := do
  let coords ← coordsOf f
  let props ← propsOf f
  Except.ok (mkLocRow props coords)

/-- Sequential construction of the row list (the `for f in features` loop):
the first raised exception aborts the whole call. -/
def buildRows {α : Type} (g : Json → Except String α) : List Json → Except String (List α)
  | [] => Except.ok []
  | f :: fs => do
      let r ← g f
      let rest ← buildRows g fs
      Except.ok (r :: rest)

/-- Predicate of the post-filter `df.dropna(subset=["id", "lat", "lon"])`
(build_dataset.py line 41): keep a row iff none of the three fields is the
missing value. -/
def locRowKept (r : LocRow) : Bool :=
  !r.id.isNull && !r.lat.isNull && !r.lon.isNull

/-- Model of `flatten_locations(features)` (build_dataset.py lines 19-42).
On an empty feature list `pd.DataFrame([])` has no columns, so the
`dropna(subset=...)` call raises `KeyError`; that case is an error.  All
rows carry the same eight keys, so on a nonempty list the columns exist and
`dropna` filters on the three subset columns. -/
def flatten_locations (features : List Json) : Except String (List LocRow) := do
  let rows ← buildRows flattenLocFeature features
  if rows.isEmpty then Except.error "KeyError: dropna subset"
  else Except.ok (rows.filter locRowKept)

/-- One flat status row (the dict built at build_dataset.py lines 58-61). -/
structure StRow where
  id : Json
  raw_status : String
deriving DecidableEq, Repr

/-- Properties selection of the status flattener (build_dataset.py lines
50-55): a dict with a `properties` key uses `f.get("properties") or {}`
(`AttributeError` later when that value is truthy but not a dict), a dict
without one is its own properties, and a non-dict has empty properties. -/
def statusProps (f : Json) : Except String (List (String × Json)) :=
  match f with
  | Json.obj fs =>
      if hasKey fs "properties" then
        match pyOr (pyGet fs "properties") (Json.obj []) with
        | Json.obj ps => Except.ok ps
        | _ => Except.error "AttributeError: get"
      else Except.ok fs
  | _ => Except.ok []

/-- Flattening of a single raw status feature (loop body of
`flatten_statuses`, build_dataset.py lines 49-61). -/
def flattenStFeature (f : Json) : Except String StRow := do
  let props ← statusProps f
  Except.ok { id := resolveId props, raw_status := Json.dumps (Json.obj props) }

/-- A status table: explicit column list plus rows, mirroring the
`pd.DataFrame` value returned by `flatten_statuses` (the empty-input branch
fixes the columns even with zero rows). -/
structure StTable where
  columns : List String
  rows : List StRow
deriving DecidableEq, Repr

/-- Model of `flatten_statuses(features)` (build_dataset.py lines 44-68).
An empty input short-circuits to an empty table with the two defined
columns.  On a nonempty input every built row dict has keys `id` and
`raw_status`, so `"id" in df.columns` holds and the `dropna(subset=["id"])`
branch filters on `id`; the `else` rebuild at line 67 is unreachable. -/
def flatten_statuses (features : List Json) : Except String StTable := do
  if features.isEmpty then
    Except.ok { columns := ["id", "raw_status"], rows := [] }
  else
    let rows ← buildRows flattenStFeature features
    Except.ok { columns := ["id", "raw_status"], rows := rows.filter (fun r => !r.id.isNull) }

/-- One row of the merged dataset: the location fields plus the nullable
`raw_status` column contributed by the right side of the join. -/
structure MergedRow where
  loc : LocRow
  raw_status : Json
deriving DecidableEq, Repr

/-- Output rows contributed by one left row of the join: one row per
status row with an equal `id` (in right-table order), or a single row with
missing `raw_status` when no status matches. -/
def rowsFor (sts : List StRow) (l : LocRow) : List MergedRow :=
  let ms := sts.filter (fun s => decide (s.id = l.id))
  if ms.isEmpty then [{ loc := l, raw_status := Json.null }]
  else ms.map (fun s => { loc := l, raw_status := Json.str s.raw_status })

/-- Model of `df_loc.merge(df_st, on="id", how="left")` (build_dataset.py
line 80).  A pandas left merge keeps every left row in left order; each
left row contributes its block of rows contiguously. -/
def mergeLeft (locs : List LocRow) (sts : List StRow) : List MergedRow :=
  locs.flatMap (rowsFor sts)

/-!
Embedding of `scripts/fetch_afir.py`.
-/

/-- A concrete location row used by several witnesses. -/
def locRowA : LocRow :=
  { id := Json.str "A", name := Json.null, operator := Json.null, city := Json.null,
    address := Json.null, lat := Json.num 2, lon := Json.num 1, raw_properties := "" }

/-- The good feature of the spec scenario: `properties.id = "A"`,
coordinates `[1, 2]`. -/
def featureA : Json :=
  Json.obj [("properties", Json.obj [("id", Json.str "A")]),
    ("geometry", Json.obj [("coordinates", Json.arr [Json.num 1, Json.num 2])])]

/-- The row `featureA` flattens to. -/
def flatRowA : LocRow :=
  { id := Json.str "A", name := Json.null, operator := Json.null, city := Json.null,
    address := Json.null, lat := Json.num 2, lon := Json.num 1,
    raw_properties := "\x7b\"id\": \"A\"\x7d" }

/-- One HTTP response of the feed, as seen by the loop body: the status code
and the decoded JSON body (`r.json()`). -/
structure HttpResponse where
  status : Nat
  body : Json
deriving DecidableEq, Repr

/-- Model of `r.raise_for_status()`: `requests` raises `HTTPError` exactly
for status codes in `[400, 600)`. -/
def raiseForStatus (r : HttpResponse) : Except String Unit :=
  if 400 ≤ r.status ∧ r.status < 600 then Except.error "HTTPError" else Except.ok ()

/-- Model of `chunk = data.get("features", []) if isinstance(data, dict) else []`
followed by `features.extend(chunk)` (fetch_afir.py lines 31-32): `extend`
accepts any iterable (a string extends by its characters, a dict by its
keys) and raises `TypeError` on `None`, booleans and numbers. -/
def getChunk (body : Json) : Except String (List Json) :=
  match body with
  | Json.obj fs =>
      match jsonLookup fs "features" with
      | none => Except.ok []
      | some (Json.arr xs) => Except.ok xs
      | some (Json.str s) => Except.ok (s.data.map (fun c => Json.str (String.mk [c])))
      | some (Json.obj gs) => Except.ok (gs.map (fun kv => Json.str kv.fst))
      | some _ => Except.error "TypeError: extend on non-iterable"
  | _ => Except.ok []

/-- Model of
`cursor = (data.get("pagination") or {}).get("nextCursor") if isinstance(data, dict) else None`
(fetch_afir.py line 37): `AttributeError` when `pagination` holds a truthy
non-dict. -/
def nextCursorOf (body : Json) : Except String Json :=
  match body with
  | Json.obj fs =>
      match pyOr (pyGet fs "pagination") (Json.obj []) with
      | Json.obj ps => Except.ok (pyGet ps "nextCursor")
      | _ => Except.error "AttributeError: get"
  | _ => Except.ok Json.null

/-- The fetch loop of `fetch_all_geojson` (fetch_afir.py lines 22-39) over a
prescribed sequence of responses, consumed one per request in order.  The
result is the accumulated feature list together with the number of page
requests issued; running out of prescribed responses models a network
failure (`requests.get` raising). -/
def fetchPages : List HttpResponse → Except String (List Json × Nat)
  | [] => Except.error "ConnectionError: no response"
  | r :: rest => do
      let _ ← raiseForStatus r
      let chunk ← getChunk r.body
      let cursor ← nextCursorOf r.body
      if truthy cursor then do
        let p ← fetchPages rest
        Except.ok (chunk ++ p.1, p.2 + 1)
      else
        Except.ok (chunk, 1)

/-- Model of `fetch_all_geojson` (fetch_afir.py lines 17-46).  On success the
result carries the FeatureCollection written to `out_path` (the only write,
performed after the loop finishes), the returned feature count, and the
number of page requests; a raised exception propagates before any write. -/
def fetch_all_geojson (responses : List HttpResponse) : Except String (Json × Nat × Nat) :=
  (fetchPages responses).map (fun p =>
    (Json.obj [("type", Json.str "FeatureCollection"), ("features", Json.arr p.1)],
     p.1.length, p.2))

/-- Feature list of one page, as the specification describes it: the value
of `features` when it is present (a list in a valid feed page), else the
empty list. -/
def pageFeatures (r : HttpResponse) : List Json :=
  match r.body with
  | Json.obj fs =>
      match jsonLookup fs "features" with
      | some (Json.arr xs) => xs
      | _ => []
  | _ => []

/-- The `nextCursor` value the loop extracts from a page whose body is a
well-formed feed response (absent keys read as `None`). -/
def pageCursor (r : HttpResponse) : Json :=
  match r.body with
  | Json.obj fs =>
      match pyOr (pyGet fs "pagination") (Json.obj []) with
      | Json.obj ps => pyGet ps "nextCursor"
      | _ => Json.null
  | _ => Json.null

/-- The raw `nextCursor` lookup of a page's pagination metadata: `none` when
the metadata carries no `nextCursor` key (or there is no usable pagination
object at all). -/
def cursorLookup (r : HttpResponse) : Option Json :=
  match r.body with
  | Json.obj fs =>
      match pyOr (pyGet fs "pagination") (Json.obj []) with
      | Json.obj ps => jsonLookup ps "nextCursor"
      | _ => none
  | _ => none

/-- Well-formedness of one feed page: success status, an object body whose
`features`, when present, is a list, and whose `pagination`, after the
`or {}` default, is a dict. -/
def wfPage (r : HttpResponse) : Bool :=
  decide (r.status < 400) &&
  (match r.body with
   | Json.obj fs =>
       (match jsonLookup fs "features" with
        | none => true
        | some (Json.arr _) => true
        | some _ => false) &&
       (match pyOr (pyGet fs "pagination") (Json.obj []) with
        | Json.obj _ => true
        | _ => false)
   | _ => false)

/-- A valid multi-page response sequence: at least one page, every page
well-formed, every page before the last carrying a truthy `nextCursor`, and
the last page's pagination metadata carrying no `nextCursor` at all. -/
def validSeq : List HttpResponse → Bool
  | [] => false
  | [r] => wfPage r && (cursorLookup r).isNone
  | r :: rest => wfPage r && truthy (pageCursor r) && validSeq rest

/-- The fetch loop reaches a request that fails: some page answers with an
error status (`[400, 600)`), and every page before it is well-formed, has a
success status and hands the loop a truthy `nextCursor`. -/
def reachesFailure : List HttpResponse → Bool
  | [] => false
  | r :: rest =>
      (decide (400 ≤ r.status) && decide (r.status < 600)) ||
      (wfPage r && truthy (pageCursor r) && reachesFailure rest)

/-!
Embedding of the snapshot boundary: `df.to_csv(out_csv, index=False,
encoding="utf-8")` (build_dataset.py line 83) and `pd.read_csv(DATA)`
(app/api.py line 12).  The file is a list of characters.  `to_csv` renders
each cell as text (missing values as the empty field), quotes a field
exactly when it contains a separator, a quote or a line break (pandas
QUOTE_MINIMAL), doubles embedded quotes, joins fields with commas and
terminates every record, the header included, with a newline.  `read_csv`
splits the text into records at unquoted newlines (skipping blank lines,
which also absorbs the trailing terminator), splits each record at unquoted
commas and unquotes each field; the first record is the header.
-/

/-- Column list of the merged snapshot. -/
def mergedColumns : List String :=
  ["id", "name", "operator", "city", "address", "lat", "lon", "raw_properties", "raw_status"]

/-- Text rendering of one cell value, `str(v)` for present values and the
empty field for missing ones.  (The exact digit string chosen for a number
is irrelevant to every property proved below.) -/
def cellChars : Json → List Char
  | Json.null => []
  | Json.bool b => if b then "True".data else "False".data
  | Json.str s => s.data
  | Json.num q => (toString q).data
  | j => (Json.dumps j).data

/-- The nine cells of one merged row, in snapshot column order. -/
def rowCells (r : MergedRow) : List (List Char) :=
  [cellChars r.loc.id, cellChars r.loc.name, cellChars r.loc.operator,
   cellChars r.loc.city, cellChars r.loc.address, cellChars r.loc.lat,
   cellChars r.loc.lon, r.loc.raw_properties.data, cellChars r.raw_status]

/-- A field must be quoted when it contains a comma, a quote or a line
break (csv QUOTE_MINIMAL). -/
def needsQuoting (s : List Char) : Bool :=
  s.any (fun c => c = ',' || c = '"' || c = '\n' || c = '\r')

/-- Doubling of embedded quotes inside a quoted field. -/
def doubleQuotes : List Char → List Char
  | [] => []
  | c :: cs => if c = '"' then '"' :: '"' :: doubleQuotes cs else c :: doubleQuotes cs

/-- csv field encoding: quote and double when needed, else verbatim. -/
def escapeCell (s : List Char) : List Char :=
  if needsQuoting s then '"' :: (doubleQuotes s ++ ['"']) else s

/-- Join of pieces with a single separator character between them. -/
def joinSep (sep : Char) : List (List Char) → List Char
  | [] => []
  | [x] => x
  | x :: xs => x ++ sep :: joinSep sep xs

/-- One encoded csv record. -/
def renderRecord (cells : List (List Char)) : List Char :=
  joinSep ',' (cells.map escapeCell)

/-- The whole file: every record, header included, newline-terminated. -/
def renderFile (records : List (List (List Char))) : List Char :=
  (records.map (fun rec => renderRecord rec ++ ['\n'])).flatten

/-- Snapshot write of a merged table: header row then one record per row. -/
def writeSnapshotCsv (rows : List MergedRow) : List Char :=
  renderFile ((mergedColumns.map String.data) :: rows.map rowCells)

/-- Splitting of csv text at unquoted occurrences of `sep`; a quote
character toggles the in-quotes state. -/
def splitQuoted (sep : Char) (q : Bool) : List Char → List (List Char)
  | [] => [[]]
  | c :: cs =>
      if c = sep && !q then [] :: splitQuoted sep false cs
      else List.modifyHead (fun h => c :: h) (splitQuoted sep (if c = '"' then !q else q) cs)

/-- Undoing of quote doubling. -/
def undouble : List Char → List Char
  | [] => []
  | [c] => [c]
  | c1 :: c2 :: cs =>
      if c1 = '"' && c2 = '"' then '"' :: undouble cs
      else c1 :: undouble (c2 :: cs)

/-- csv field decoding: strip an enclosing quote pair and undo doubling. -/
def unescapeCell (s : List Char) : List Char :=
  match s with
  | [] => []
  | c :: rest =>
      if c = '"' && rest.getLast? = some '"' then undouble rest.dropLast
      else c :: rest

/-- Model of `pd.read_csv` down to the cell-text level: records at unquoted
newlines (blank lines skipped), fields at unquoted commas, fields
unquoted.  The first parsed record is the header naming the columns. -/
def parseCsv (file : List Char) : List (List (List Char)) :=
  ((splitQuoted '\n' false file).filter (fun rec => !rec.isEmpty)).map
    (fun rec => (splitQuoted ',' false rec).map unescapeCell)

/-- Scan of a piece of csv text: the final in-quotes state when no unquoted
`sep` occurs in it, `none` otherwise. -/
def scanQuoted (sep : Char) (q : Bool) : List Char → Option Bool
  | [] => some q
  | c :: cs =>
      if c = sep && !q then none
      else scanQuoted sep (if c = '"' then !q else q) cs

/-!
Helper lemmas.
-/

theorem isNull_eq_false_iff (j : Json) : Json.isNull j = false ↔ j ≠ Json.null := by
  cases j <;> simp [Json.isNull]

/-!
Claim C5 — the Feature Extractor.
-/

/-- C5 counterexample: the claim says a mapping containing a `features` key
yields that key's value, with an empty list only for a null value; but for
`{"features": ""}` the code returns `[]`, not the stored value `""`
(`data.get("features") or []` replaces every falsy value, not just null). -/
theorem c5_extract_features_counterexample :
    extract_features (Json.obj [("features", Json.str "")]) = Json.arr [] ∧
    hasKey [("features", Json.str "")] "features" = true ∧
    Json.arr [] ≠ Json.str "" := by
  refine ⟨by decide, by decide, by decide⟩

/-- C5 amended: `extract_features` never raises (it is a total function of
the input), a mapping with a `features` key returns that value when the
value is truthy and the empty list when it is falsy (null, `false`, `0`,
empty string, empty list, empty mapping), a bare list returns itself
unchanged, and anything else returns the empty list. -/
theorem c5_extract_features_amended (d : Json) :
    (∀ fs, d = Json.obj fs → hasKey fs "features" = true →
      truthy (pyGet fs "features") = true → extract_features d = pyGet fs "features") ∧
    (∀ fs, d = Json.obj fs → hasKey fs "features" = true →
      truthy (pyGet fs "features") = false → extract_features d = Json.arr []) ∧
    (∀ fs, d = Json.obj fs → hasKey fs "features" = false →
      extract_features d = Json.arr []) ∧
    (∀ xs, d = Json.arr xs → extract_features d = Json.arr xs) ∧
    ((∀ fs, d ≠ Json.obj fs) → (∀ xs, d ≠ Json.arr xs) → extract_features d = Json.arr []) := by
  refine ⟨?_, ?_, ?_, ?_, ?_⟩
  · rintro fs rfl hk ht
    simp [extract_features, hk, pyOr, ht]
  · rintro fs rfl hk ht
    simp [extract_features, hk, pyOr, ht]
  · rintro fs rfl hk
    simp [extract_features, hk]
  · rintro xs rfl
    simp [extract_features]
  · intro hobj harr
    cases d with
    | obj fs => exact absurd rfl (hobj fs)
    | arr xs => exact absurd rfl (harr xs)
    | null => simp [extract_features]
    | bool b => simp [extract_features]
    | num q => simp [extract_features]
    | str s => simp [extract_features]

/-- C5 amended witness: the amended theorem applied to the concrete input
`{"features": [1]}`. -/
theorem c5_extract_features_amended_witness :
    extract_features (Json.obj [("features", Json.arr [Json.num 1])]) =
      Json.arr [Json.num 1] := by
  have h := (c5_extract_features_amended (Json.obj [("features", Json.arr [Json.num 1])])).1
    [("features", Json.arr [Json.num 1])] rfl (by decide) (by decide)
  simpa using h

/-!
Claim C4 — identifier resolution in both flatteners.
-/

theorem except_bind_ok {α β : Type} (a : α) (f : α → Except String β) :
    (Except.ok a >>= f) = f a := rfl

theorem except_bind_error {α β : Type} (e : String) (f : α → Except String β) :
    ((Except.error e : Except String α) >>= f) = Except.error e := rfl

/-- C4 counterexample: the claim says that if the key `id` is present its
value is the identifier; but for properties `{"id": "", "locationId": "X"}`
the key `id` is present with value `""` and both flatteners resolve the
identifier to `"X"` — the chain `props.get("id") or props.get("locationId")
or props.get("stationId")` skips falsy present values. -/
theorem c4_identifier_resolution_counterexample :
    hasKey [("id", Json.str ""), ("locationId", Json.str "X")] "id" = true ∧
    pyGet [("id", Json.str ""), ("locationId", Json.str "X")] "id" = Json.str "" ∧
    resolveId [("id", Json.str ""), ("locationId", Json.str "X")] = Json.str "X" ∧
    (flattenStFeature (Json.obj [("properties",
        Json.obj [("id", Json.str ""), ("locationId", Json.str "X")])])).map StRow.id =
      Except.ok (Json.str "X") ∧
    (flattenLocFeature (Json.obj [("properties",
        Json.obj [("id", Json.str ""), ("locationId", Json.str "X")])])).map LocRow.id =
      Except.ok (Json.str "X") ∧
    Json.str "X" ≠ Json.str "" := by
  refine ⟨by decide, by decide, by decide, by rfl, by rfl, by decide⟩

/-- C4 amended: in both flatteners the identifier is the first truthy value
among `props.get("id")`, `props.get("locationId")`, `props.get("stationId")`
(a key that is absent, or present with a falsy value such as null or the
empty string, is skipped); when the first two lookups are falsy the result
is the `stationId` lookup (null when absent). -/
theorem c4_identifier_resolution_amended (ps : List (String × Json)) :
    (truthy (pyGet ps "id") = true → resolveId ps = pyGet ps "id") ∧
    (truthy (pyGet ps "id") = false → truthy (pyGet ps "locationId") = true →
      resolveId ps = pyGet ps "locationId") ∧
    (truthy (pyGet ps "id") = false → truthy (pyGet ps "locationId") = false →
      resolveId ps = pyGet ps "stationId") ∧
    (∀ f r, subMapping f "properties" = Json.obj ps →
      flattenLocFeature f = Except.ok r → r.id = resolveId ps) ∧
    (∀ f r, statusProps f = Except.ok ps →
      flattenStFeature f = Except.ok r → r.id = resolveId ps) := by
  refine ⟨?_, ?_, ?_, ?_, ?_⟩
  · intro h
    simp [resolveId, pyOr, h]
  · intro h1 h2
    simp [resolveId, pyOr, h1, h2]
  · intro h1 h2
    simp [resolveId, pyOr, h1, h2]
  · intro f r hps h
    unfold flattenLocFeature at h
    cases hg : coordsOf f with
    | error e =>
        rw [hg, except_bind_error] at h
        exact absurd h (by simp)
    | ok coords =>
        have hp : propsOf f = Except.ok ps := by
          unfold propsOf
          rw [hps]
        rw [hg, except_bind_ok, hp, except_bind_ok] at h
        cases h
        rfl
  · intro f r hps h
    unfold flattenStFeature at h
    rw [hps, except_bind_ok] at h
    cases h
    rfl

/-- C4 amended witness: with properties `{"id": "A"}` the `id` lookup is
truthy and the resolved identifier is its value. -/
theorem c4_identifier_resolution_amended_witness :
    truthy (pyGet [("id", Json.str "A")] "id") = true ∧
    resolveId [("id", Json.str "A")] = pyGet [("id", Json.str "A")] "id" :=
  ⟨by decide, (c4_identifier_resolution_amended [("id", Json.str "A")]).1 (by decide)⟩

/-!
Claim C6 — coordinate extraction of the Location Flattener.
-/

theorem pyOr_obj_empty (gs : List (String × Json)) :
    pyOr (Json.obj gs) (Json.obj []) = Json.obj gs := by
  by_cases h : gs = []
  · subst h; simp [pyOr]
  · simp [pyOr, truthy, h]

/-- C6: for a feature whose `properties` slot is usable (the only way the
flattener can raise outside the geometry path), the flattener never fails
on the malformed-geometry shapes the claim names, and reads
`geometry.coordinates` as `[lon, lat]`: a falsy/missing `geometry` or a
falsy/missing `coordinates` yields null `lat` and `lon`; a one-element
coordinate list yields `lon` from index 0 and a null `lat`; a list with two
or more elements yields `lon` from index 0 and `lat` from index 1. -/
theorem c6_coordinate_extraction (fs : List (String × Json))
    (hp : (propsOf (Json.obj fs)).isOk = true) :
    (truthy (pyGet fs "geometry") = false →
      ∃ r, flattenLocFeature (Json.obj fs) = Except.ok r ∧
        r.lat = Json.null ∧ r.lon = Json.null) ∧
    (∀ gs, pyGet fs "geometry" = Json.obj gs → truthy (pyGet gs "coordinates") = false →
      ∃ r, flattenLocFeature (Json.obj fs) = Except.ok r ∧
        r.lat = Json.null ∧ r.lon = Json.null) ∧
    (∀ gs c0, pyGet fs "geometry" = Json.obj gs → pyGet gs "coordinates" = Json.arr [c0] →
      ∃ r, flattenLocFeature (Json.obj fs) = Except.ok r ∧
        r.lon = c0 ∧ r.lat = Json.null) ∧
    (∀ gs c0 c1 rest, pyGet fs "geometry" = Json.obj gs →
      pyGet gs "coordinates" = Json.arr (c0 :: c1 :: rest) →
      ∃ r, flattenLocFeature (Json.obj fs) = Except.ok r ∧
        r.lon = c0 ∧ r.lat = c1) := by
  cases hps : propsOf (Json.obj fs) with
  | error e => rw [hps] at hp; exact absurd hp (by simp [Except.isOk, Except.toBool])
  | ok ps =>
  refine ⟨?_, ?_, ?_, ?_⟩
  · intro h1
    have hsub : subMapping (Json.obj fs) "geometry" = Json.obj [] := by
      simp [subMapping, pyOr, h1]
    have hc : coordsOf (Json.obj fs) = Except.ok [Json.null, Json.null] := by
      unfold coordsOf
      rw [hsub]
      rfl
    refine ⟨mkLocRow ps [Json.null, Json.null], ?_, by simp [mkLocRow], by simp [mkLocRow]⟩
    unfold flattenLocFeature
    rw [hc, except_bind_ok, hps, except_bind_ok]
  · intro gs hg h1
    have hsub : subMapping (Json.obj fs) "geometry" = Json.obj gs := by
      simp [subMapping, hg, pyOr_obj_empty]
    have hc : coordsOf (Json.obj fs) = Except.ok [Json.null, Json.null] := by
      unfold coordsOf
      rw [hsub]
      simp only [getOnMapping, except_bind_ok]
      rw [show pyOr (pyGet gs "coordinates") (Json.arr [Json.null, Json.null]) =
        Json.arr [Json.null, Json.null] from by simp [pyOr, h1]]
    refine ⟨mkLocRow ps [Json.null, Json.null], ?_, by simp [mkLocRow], by simp [mkLocRow]⟩
    unfold flattenLocFeature
    rw [hc, except_bind_ok, hps, except_bind_ok]
  · intro gs c0 hg hco
    have hsub : subMapping (Json.obj fs) "geometry" = Json.obj gs := by
      simp [subMapping, hg, pyOr_obj_empty]
    have hc : coordsOf (Json.obj fs) = Except.ok [c0] := by
      unfold coordsOf
      rw [hsub]
      simp only [getOnMapping, except_bind_ok]
      rw [show pyOr (pyGet gs "coordinates") (Json.arr [Json.null, Json.null]) =
        Json.arr [c0] from by simp [hco, pyOr, truthy]]
    refine ⟨mkLocRow ps [c0], ?_, by simp [mkLocRow], by simp [mkLocRow]⟩
    unfold flattenLocFeature
    rw [hc, except_bind_ok, hps, except_bind_ok]
  · intro gs c0 c1 rest hg hco
    have hsub : subMapping (Json.obj fs) "geometry" = Json.obj gs := by
      simp [subMapping, hg, pyOr_obj_empty]
    have hc : coordsOf (Json.obj fs) = Except.ok (c0 :: c1 :: rest) := by
      unfold coordsOf
      rw [hsub]
      simp only [getOnMapping, except_bind_ok]
      rw [show pyOr (pyGet gs "coordinates") (Json.arr [Json.null, Json.null]) =
        Json.arr (c0 :: c1 :: rest) from by simp [hco, pyOr, truthy]]
    refine ⟨mkLocRow ps (c0 :: c1 :: rest), ?_, by simp [mkLocRow], by simp [mkLocRow]⟩
    unfold flattenLocFeature
    rw [hc, except_bind_ok, hps, except_bind_ok]

/-- C6 witness: a feature with `properties.id = "A"` and no geometry at all
flattens without failing, to a row with null coordinates. -/
theorem c6_coordinate_extraction_witness :
    ∃ r, flattenLocFeature (Json.obj [("properties", Json.obj [("id", Json.str "A")])]) =
      Except.ok r ∧ r.lat = Json.null ∧ r.lon = Json.null :=
  (c6_coordinate_extraction [("properties", Json.obj [("id", Json.str "A")])]
    (by decide)).1 (by decide)

/-!
Merge lemmas shared by claims C2, C3, C7 and C10.
-/

theorem mergeLeft_nil : ∀ sts, mergeLeft [] sts = [] := by
  intro sts
  simp [mergeLeft]

theorem mergeLeft_cons (l : LocRow) (ls : List LocRow) (sts : List StRow) :
    mergeLeft (l :: ls) sts = rowsFor sts l ++ mergeLeft ls sts := by
  simp [mergeLeft]

theorem rowsFor_ne_nil (sts : List StRow) (l : LocRow) : rowsFor sts l ≠ [] := by
  unfold rowsFor
  by_cases he : (sts.filter (fun s => decide (s.id = l.id))).isEmpty
  · simp [he]
  · rw [if_neg he]
    rw [Bool.not_eq_true, List.isEmpty_eq_false_iff_exists_mem] at he
    obtain ⟨s, hs⟩ := he
    intro hmap
    rw [List.map_eq_nil_iff] at hmap
    rw [hmap] at hs
    exact absurd hs (List.not_mem_nil s)

theorem rowsFor_loc {sts : List StRow} {l : LocRow} {r : MergedRow}
    (h : r ∈ rowsFor sts l) : r.loc = l := by
  unfold rowsFor at h
  by_cases he : (sts.filter (fun s => decide (s.id = l.id))).isEmpty
  · rw [if_pos he] at h
    simp at h
    rw [h]
  · rw [if_neg he] at h
    simp only [List.mem_map] at h
    obtain ⟨s, _, hr⟩ := h
    rw [← hr]

theorem rowsFor_no_match {sts : List StRow} {l : LocRow}
    (h : ∀ s ∈ sts, s.id ≠ l.id) :
    rowsFor sts l = [{ loc := l, raw_status := Json.null }] := by
  have hms : sts.filter (fun s => decide (s.id = l.id)) = [] := by
    rw [List.filter_eq_nil_iff]
    intro s hs
    simpa using h s hs
  unfold rowsFor
  rw [hms]
  rfl

theorem rowsFor_map_loc (sts : List StRow) (l : LocRow) :
    (rowsFor sts l).map (fun r => r.loc) =
      List.replicate (max (sts.countP (fun s => decide (s.id = l.id))) 1) l := by
  unfold rowsFor
  by_cases he : (sts.filter (fun s => decide (s.id = l.id))).isEmpty
  · rw [if_pos he]
    rw [List.isEmpty_iff] at he
    rw [List.countP_eq_length_filter, he]
    rfl
  · rw [if_neg he, List.map_map]
    rw [Bool.not_eq_true, List.isEmpty_eq_false_iff_exists_mem] at he
    obtain ⟨s, hs⟩ := he
    have hlen : 1 ≤ (sts.filter (fun s => decide (s.id = l.id))).length :=
      List.length_pos_of_mem hs
    rw [List.countP_eq_length_filter, Nat.max_eq_left hlen]
    have hcomp : ((fun r : MergedRow => r.loc) ∘
        fun s : StRow => ({ loc := l, raw_status := Json.str s.raw_status } : MergedRow)) =
        (fun _ : StRow => l) := rfl
    rw [hcomp, List.map_const']

theorem loc_mem_of_mem_mergeLeft {locs : List LocRow} {sts : List StRow} {r : MergedRow}
    (h : r ∈ mergeLeft locs sts) : r.loc ∈ locs := by
  simp only [mergeLeft, List.mem_flatMap] at h
  obtain ⟨l, hl, hr⟩ := h
  rw [rowsFor_loc hr]
  exact hl

/-!
Claim C3 — the Merger is a pure left join.
-/

/-- C3: the merge is a pure left join on `id`: every location row appears at
least once in the output (so none is dropped), every output row comes from
a location row, and a location row whose `id` matches no status row
contributes exactly its own occurrences, each carrying a null
`raw_status`. -/
theorem c3_merge_pure_left_join (locs : List LocRow) (sts : List StRow) :
    (∀ l ∈ locs, ∃ r, r ∈ mergeLeft locs sts ∧ r.loc = l) ∧
    (∀ r ∈ mergeLeft locs sts, r.loc ∈ locs) ∧
    (∀ l, (∀ s ∈ sts, s.id ≠ l.id) →
      (mergeLeft locs sts).filter (fun r => decide (r.loc = l)) =
        List.replicate (locs.countP (fun x => decide (x = l)))
          { loc := l, raw_status := Json.null }) := by
  refine ⟨?_, fun r hr => loc_mem_of_mem_mergeLeft hr, ?_⟩
  · intro l hl
    obtain ⟨r, hr⟩ := List.exists_mem_of_ne_nil _ (rowsFor_ne_nil sts l)
    refine ⟨r, ?_, rowsFor_loc hr⟩
    simp only [mergeLeft, List.mem_flatMap]
    exact ⟨l, hl, hr⟩
  · intro l hnone
    induction locs with
    | nil => simp [mergeLeft]
    | cons l2 ls ih =>
        rw [mergeLeft_cons, List.filter_append, ih, List.countP_cons]
        by_cases hl2 : l2 = l
        · subst hl2
          rw [rowsFor_no_match hnone]
          simp [List.replicate_succ]
        · have hrows : (rowsFor sts l2).filter (fun r => decide (r.loc = l)) = [] := by
            rw [List.filter_eq_nil_iff]
            intro r hr
            simp [rowsFor_loc hr, hl2]
          rw [hrows]
          simp [hl2]

/-- C3 witness: one location with id `"A"`, no status rows: the merged
output is exactly one row per location occurrence, with null status. -/
theorem c3_merge_pure_left_join_witness :
    (mergeLeft [locRowA] []).filter (fun r => decide (r.loc = locRowA)) =
      [{ loc := locRowA, raw_status := Json.null }] := by
  have h := (c3_merge_pure_left_join [locRowA] []).2.2 locRowA
    (by intro s hs; exact absurd hs (List.not_mem_nil s))
  simpa using h

/-!
Claim C10 — the merge preserves the order of the location table.
-/

/-- C10: projecting the merged output to its originating location rows
gives exactly the location table expanded in place: each location row is
replaced by one contiguous block of copies (one per matching status row,
one when nothing matches), and blocks follow the location table's order.
In particular rows derived from an earlier location row precede rows
derived from a later one. -/
theorem c10_merge_preserves_left_order (locs : List LocRow) (sts : List StRow) :
    (mergeLeft locs sts).map (fun r => r.loc) =
      locs.flatMap (fun l =>
        List.replicate (max (sts.countP (fun s => decide (s.id = l.id))) 1) l) := by
  induction locs with
  | nil => simp [mergeLeft]
  | cons l ls ih =>
      rw [mergeLeft_cons, List.map_append, ih, List.flatMap_cons, rowsFor_map_loc]

/-!
Claim C7 — empty status feed keeps the schema.
-/

/-- C7: on an empty feature list the status flattener returns a table with
zero rows but exactly the columns `id, raw_status`, and the left join with
that empty table succeeds, yielding one row per location row, each with a
null status. -/
theorem c7_status_empty_schema (df : StTable)
    (h : flatten_statuses [] = Except.ok df) :
    df.columns = ["id", "raw_status"] ∧ df.rows = [] ∧
    (∀ locs, mergeLeft locs df.rows =
      locs.map (fun l => { loc := l, raw_status := Json.null })) := by
  have heq : flatten_statuses ([] : List Json) =
      Except.ok { columns := ["id", "raw_status"], rows := [] } := rfl
  rw [heq] at h
  injection h with h
  subst h
  refine ⟨rfl, rfl, ?_⟩
  intro locs
  induction locs with
  | nil => simp [mergeLeft]
  | cons l ls ih =>
      rw [mergeLeft_cons, ih, List.map_cons]
      rw [show rowsFor [] l = [{ loc := l, raw_status := Json.null }] from rfl]
      rfl

/-- C7 witness: the theorem applied to the value `flatten_statuses []`
actually returns, then to the one-row location table. -/
theorem c7_status_empty_schema_witness :
    flatten_statuses [] = Except.ok { columns := ["id", "raw_status"], rows := [] } ∧
    mergeLeft [locRowA] [] = [{ loc := locRowA, raw_status := Json.null }] := by
  have h := c7_status_empty_schema { columns := ["id", "raw_status"], rows := [] } rfl
  exact ⟨rfl, by simpa using h.2.2 [locRowA]⟩

/-!
Claim C2 — non-null `id`, `lat`, `lon` in every persisted row.
-/

/-- C2: whenever `flatten_locations` succeeds, every row of its result has
non-null `id`, `lat` and `lon`; the result is exactly the candidate row
list filtered by the dropna gate (so any candidate with a null in one of
the three fields is removed); and therefore every row of any merged
snapshot built from it keeps the three fields non-null. -/
theorem c2_nonnull_id_lat_lon (features : List Json) (locs : List LocRow)
    (h : flatten_locations features = Except.ok locs) :
    (∀ r ∈ locs, r.id ≠ Json.null ∧ r.lat ≠ Json.null ∧ r.lon ≠ Json.null) ∧
    (∀ cand, buildRows flattenLocFeature features = Except.ok cand →
      locs = cand.filter locRowKept) ∧
    (∀ sts, ∀ r ∈ mergeLeft locs sts,
      r.loc.id ≠ Json.null ∧ r.loc.lat ≠ Json.null ∧ r.loc.lon ≠ Json.null) := by
  unfold flatten_locations at h
  cases hb : buildRows flattenLocFeature features with
  | error e =>
      rw [hb, except_bind_error] at h
      exact absurd h (by simp)
  | ok rows =>
      rw [hb, except_bind_ok] at h
      by_cases he : rows.isEmpty
      · rw [if_pos he] at h
        exact absurd h (by simp)
      · rw [if_neg he] at h
        injection h with h
        have hmem : ∀ r ∈ locs, r.id ≠ Json.null ∧ r.lat ≠ Json.null ∧ r.lon ≠ Json.null := by
          intro r hr
          rw [← h] at hr
          have hk := List.of_mem_filter hr
          unfold locRowKept at hk
          rw [Bool.and_eq_true, Bool.and_eq_true] at hk
          obtain ⟨⟨h1, h2⟩, h3⟩ := hk
          rw [Bool.not_eq_true'] at h1 h2 h3
          exact ⟨(isNull_eq_false_iff _).mp h1, (isNull_eq_false_iff _).mp h2,
            (isNull_eq_false_iff _).mp h3⟩
        refine ⟨hmem, ?_, ?_⟩
        · intro cand hc
          injection hc with hc
          rw [← h, hc]
        · intro sts r hr
          exact hmem r.loc (loc_mem_of_mem_mergeLeft hr)

/-- C2 witness: a two-feature input (one complete feature, one empty dict
whose candidate has null id and coordinates) flattens to exactly the single
complete row, whose three key fields are non-null. -/
theorem c2_nonnull_id_lat_lon_witness :
    flatten_locations [featureA, Json.obj []] = Except.ok [flatRowA] ∧
    (flatRowA.id ≠ Json.null ∧ flatRowA.lat ≠ Json.null ∧ flatRowA.lon ≠ Json.null) := by
  refine ⟨by rfl, ?_⟩
  have h := (c2_nonnull_id_lat_lon [featureA, Json.obj []] [flatRowA] (by rfl)).1
  exact h flatRowA (List.mem_singleton.mpr rfl)

/-!
Claim C1 — the Paginated Fetcher concatenates all pages and stops exactly
at the cursorless page.
-/

theorem getChunk_of_wf {r : HttpResponse} (h : wfPage r = true) :
    getChunk r.body = Except.ok (pageFeatures r) := by
  obtain ⟨st, body⟩ := r
  cases body with
  | obj fs =>
      cases hl : jsonLookup fs "features" with
      | none => simp [getChunk, pageFeatures, hl]
      | some v =>
          cases v with
          | arr xs => simp [getChunk, pageFeatures, hl]
          | null => exact absurd h (by simp [wfPage, hl])
          | bool b => exact absurd h (by simp [wfPage, hl])
          | num q => exact absurd h (by simp [wfPage, hl])
          | str s => exact absurd h (by simp [wfPage, hl])
          | obj gs => exact absurd h (by simp [wfPage, hl])
  | null => simp [getChunk, pageFeatures]
  | bool b => simp [getChunk, pageFeatures]
  | num q => simp [getChunk, pageFeatures]
  | str s => simp [getChunk, pageFeatures]
  | arr xs => simp [getChunk, pageFeatures]

theorem nextCursorOf_of_wf {r : HttpResponse} (h : wfPage r = true) :
    nextCursorOf r.body = Except.ok (pageCursor r) := by
  obtain ⟨st, body⟩ := r
  cases body with
  | obj fs =>
      cases hp : pyOr (pyGet fs "pagination") (Json.obj []) with
      | obj ps => simp [nextCursorOf, pageCursor, hp]
      | null => exact absurd h (by simp [wfPage, hp])
      | bool b => exact absurd h (by simp [wfPage, hp])
      | num q => exact absurd h (by simp [wfPage, hp])
      | str s => exact absurd h (by simp [wfPage, hp])
      | arr xs => exact absurd h (by simp [wfPage, hp])
  | null => simp [nextCursorOf, pageCursor]
  | bool b => simp [nextCursorOf, pageCursor]
  | num q => simp [nextCursorOf, pageCursor]
  | str s => simp [nextCursorOf, pageCursor]
  | arr xs => simp [nextCursorOf, pageCursor]

theorem raiseForStatus_of_wf {r : HttpResponse} (h : wfPage r = true) :
    raiseForStatus r = Except.ok () := by
  unfold wfPage at h
  rw [Bool.and_eq_true] at h
  obtain ⟨hs, _⟩ := h
  rw [decide_eq_true_eq] at hs
  unfold raiseForStatus
  rw [if_neg]
  intro hcon
  exact absurd hs (by omega)

theorem pageCursor_of_lookup_none {r : HttpResponse} (h : cursorLookup r = none) :
    pageCursor r = Json.null := by
  obtain ⟨st, body⟩ := r
  cases body with
  | obj fs =>
      cases hp : pyOr (pyGet fs "pagination") (Json.obj []) with
      | obj ps =>
          simp only [cursorLookup, hp] at h
          simp only [pageCursor]
          rw [hp]
          simp [pyGet, h]
      | null => simp [pageCursor, hp]
      | bool b => simp [pageCursor, hp]
      | num q => simp [pageCursor, hp]
      | str s => simp [pageCursor, hp]
      | arr xs => simp [pageCursor, hp]
  | null => simp [pageCursor]
  | bool b => simp [pageCursor]
  | num q => simp [pageCursor]
  | str s => simp [pageCursor]
  | arr xs => simp [pageCursor]

theorem fetchPages_of_validSeq : ∀ rs, validSeq rs = true →
    fetchPages rs = Except.ok (rs.flatMap pageFeatures, rs.length)
  | [], h => by simp [validSeq] at h
  | [r], h => by
      rw [validSeq] at h
      rw [Bool.and_eq_true] at h
      obtain ⟨hw, hn⟩ := h
      rw [Option.isNone_iff_eq_none] at hn
      unfold fetchPages
      rw [raiseForStatus_of_wf hw, except_bind_ok, getChunk_of_wf hw, except_bind_ok,
        nextCursorOf_of_wf hw, except_bind_ok, pageCursor_of_lookup_none hn]
      simp [truthy]
  | r :: r2 :: rest, h => by
      have h2 : ((wfPage r && truthy (pageCursor r)) && validSeq (r2 :: rest)) = true := h
      rw [Bool.and_eq_true, Bool.and_eq_true] at h2
      obtain ⟨⟨hw, hc⟩, hv⟩ := h2
      unfold fetchPages
      rw [raiseForStatus_of_wf hw, except_bind_ok, getChunk_of_wf hw, except_bind_ok,
        nextCursorOf_of_wf hw, except_bind_ok, hc]
      rw [show fetchPages (r2 :: rest) = Except.ok ((r2 :: rest).flatMap pageFeatures,
        (r2 :: rest).length) from fetchPages_of_validSeq (r2 :: rest) hv]
      rw [except_bind_ok]
      simp [List.flatMap_cons]

/-- C1: for every valid multi-page sequence of feed responses (each page
well formed, each page before the last carrying a truthy `nextCursor`, the
last page's pagination metadata carrying none), the fetcher succeeds,
accumulates exactly the concatenation of the pages' feature lists in page
order (the empty list standing in for an absent `features` key), writes
that collection, and issues exactly one request per page — it stops
requesting exactly at the page without a `nextCursor`. -/
theorem c1_fetcher_concatenation (rs : List HttpResponse) (h : validSeq rs = true) :
    fetch_all_geojson rs = Except.ok
      (Json.obj [("type", Json.str "FeatureCollection"),
        ("features", Json.arr (rs.flatMap pageFeatures))],
       (rs.flatMap pageFeatures).length, rs.length) := by
  unfold fetch_all_geojson
  rw [fetchPages_of_validSeq rs h]
  rfl

/-- C1 witness: the two-page scenario of the specification — page 1 carries
two features and a cursor, page 2 one feature and no cursor; the fetcher
returns the three features in order after exactly two requests. -/
theorem c1_fetcher_concatenation_witness :
    fetch_all_geojson
      [{ status := 200, body := Json.obj [("features", Json.arr [Json.num 1, Json.num 2]),
          ("pagination", Json.obj [("nextCursor", Json.str "abc")])] },
       { status := 200, body := Json.obj [("features", Json.arr [Json.num 3])] }] =
      Except.ok (Json.obj [("type", Json.str "FeatureCollection"),
        ("features", Json.arr [Json.num 1, Json.num 2, Json.num 3])], 3, 2) := by
  have h := c1_fetcher_concatenation
    [{ status := 200, body := Json.obj [("features", Json.arr [Json.num 1, Json.num 2]),
        ("pagination", Json.obj [("nextCursor", Json.str "abc")])] },
     { status := 200, body := Json.obj [("features", Json.arr [Json.num 3])] }]
    (by decide)
  simpa using h

/-!
Claim C8 — a non-success HTTP status aborts the fetch before any write.
-/

theorem fetchPages_of_reachesFailure : ∀ rs, reachesFailure rs = true →
    ∃ e, fetchPages rs = Except.error e
  | [], h => by simp [reachesFailure] at h
  | r :: rest, h => by
      have h2 : ((decide (400 ≤ r.status) && decide (r.status < 600)) ||
          (wfPage r && truthy (pageCursor r) && reachesFailure rest)) = true := h
      rw [Bool.or_eq_true] at h2
      cases h2 with
      | inl hbad =>
          rw [Bool.and_eq_true, decide_eq_true_eq, decide_eq_true_eq] at hbad
          refine ⟨"HTTPError", ?_⟩
          unfold fetchPages raiseForStatus
          rw [if_pos hbad, except_bind_error]
      | inr hgo =>
          rw [Bool.and_eq_true, Bool.and_eq_true] at hgo
          obtain ⟨⟨hw, hc⟩, hrest⟩ := hgo
          obtain ⟨e, he⟩ := fetchPages_of_reachesFailure rest hrest
          refine ⟨e, ?_⟩
          unfold fetchPages
          rw [raiseForStatus_of_wf hw, except_bind_ok, getChunk_of_wf hw, except_bind_ok,
            nextCursorOf_of_wf hw, except_bind_ok, hc]
          rw [if_pos rfl, he, except_bind_error]

/-- C8: when some page request of a feed answers with a non-success status
(code in `[400, 600)`) and the loop reaches it (all earlier pages succeed
and hand over a truthy cursor), the whole fetch for that feed aborts with
an error, and nothing is written: the FeatureCollection output (carried
only by the `Except.ok` result, mirroring the write that happens after the
loop) is never produced. -/
theorem c8_fail_fast_no_write (rs : List HttpResponse)
    (h : reachesFailure rs = true) :
    (∃ e, fetch_all_geojson rs = Except.error e) ∧
    (∀ out, fetch_all_geojson rs ≠ Except.ok out) := by
  obtain ⟨e, he⟩ := fetchPages_of_reachesFailure rs h
  have hfa : fetch_all_geojson rs = Except.error e := by
    unfold fetch_all_geojson
    rw [he]
    rfl
  exact ⟨⟨e, hfa⟩, by intro out hout; rw [hfa] at hout; exact absurd hout (by simp)⟩

/-- C8 witness: a first page with a cursor followed by a 500 answer aborts
the fetch with no written output. -/
theorem c8_fail_fast_no_write_witness :
    (∃ e, fetch_all_geojson
      [{ status := 200, body := Json.obj [("features", Json.arr [Json.num 1]),
          ("pagination", Json.obj [("nextCursor", Json.str "abc")])] },
       { status := 500, body := Json.obj [] }] = Except.error e) ∧
    (∀ out, fetch_all_geojson
      [{ status := 200, body := Json.obj [("features", Json.arr [Json.num 1]),
          ("pagination", Json.obj [("nextCursor", Json.str "abc")])] },
       { status := 500, body := Json.obj [] }] ≠ Except.ok out) :=
  c8_fail_fast_no_write
    [{ status := 200, body := Json.obj [("features", Json.arr [Json.num 1]),
        ("pagination", Json.obj [("nextCursor", Json.str "abc")])] },
     { status := 500, body := Json.obj [] }] (by decide)

/-!
Claim C9 — csv snapshot round-trip.  The lemmas below show that the
quote-aware splitter inverts the quote-aware writer at the record and cell
level, which yields the round-trip for the whole file.
-/

theorem modifyHead_comp {α : Type} (f g : α → α) (l : List α) :
    List.modifyHead f (List.modifyHead g l) = List.modifyHead (fun x => f (g x)) l := by
  cases l <;> rfl

theorem modifyHead_self {α : Type} (l : List α) :
    List.modifyHead (fun x : α => x) l = l := by
  cases l <;> rfl

theorem splitQuoted_nil (sep : Char) (q : Bool) : splitQuoted sep q [] = [[]] := rfl

theorem splitQuoted_sep (sep : Char) (cs : List Char) :
    splitQuoted sep false (sep :: cs) = [] :: splitQuoted sep false cs := by
  rw [splitQuoted]
  rw [if_pos (by simp)]

theorem scanQuoted_append (sep : Char) :
    ∀ (a : List Char) (q q1 : Bool) (b : List Char),
      scanQuoted sep q a = some q1 →
      scanQuoted sep q (a ++ b) = scanQuoted sep q1 b := by
  intro a
  induction a with
  | nil =>
      intro q q1 b h
      rw [scanQuoted] at h
      injection h with h
      rw [h]
      rfl
  | cons c cs ih =>
      intro q q1 b h
      rw [scanQuoted] at h
      by_cases hc : (decide (c = sep) && !q) = true
      · rw [if_pos hc] at h
        exact absurd h (by simp)
      · rw [if_neg hc] at h
        rw [List.cons_append, scanQuoted, if_neg hc]
        exact ih _ _ _ h

theorem splitQuoted_append (sep : Char) :
    ∀ (a : List Char) (q q1 : Bool) (b : List Char),
      scanQuoted sep q a = some q1 →
      splitQuoted sep q (a ++ b) =
        List.modifyHead (fun h => a ++ h) (splitQuoted sep q1 b) := by
  intro a
  induction a with
  | nil =>
      intro q q1 b h
      rw [scanQuoted] at h
      injection h with h
      rw [h]
      simp [modifyHead_self]
  | cons c cs ih =>
      intro q q1 b h
      rw [scanQuoted] at h
      by_cases hc : (decide (c = sep) && !q) = true
      · rw [if_pos hc] at h
        exact absurd h (by simp)
      · rw [if_neg hc] at h
        rw [List.cons_append, splitQuoted, if_neg hc, ih _ _ _ h, modifyHead_comp]
        rfl

theorem scanQuoted_of_no_special (sep : Char) :
    ∀ s : List Char, (∀ c ∈ s, c ≠ sep ∧ c ≠ '"') →
      scanQuoted sep false s = some false := by
  intro s
  induction s with
  | nil => intro h; rfl
  | cons c cs ih =>
      intro h
      obtain ⟨h1, h2⟩ := h c (List.mem_cons_self c cs)
      rw [scanQuoted, if_neg (by simp [h1])]
      rw [show (if c = '"' then !false else false) = false from by simp [h2]]
      exact ih (fun x hx => h x (List.mem_cons_of_mem c hx))

theorem scanQuoted_doubleQuotes (sep : Char) (hsep : sep ≠ '"') :
    ∀ (s rest : List Char),
      scanQuoted sep true (doubleQuotes s ++ rest) = scanQuoted sep true rest := by
  intro s
  induction s with
  | nil => intro rest; rfl
  | cons c cs ih =>
      intro rest
      by_cases hc : c = '"'
      · subst hc
        rw [show doubleQuotes ('"' :: cs) = '"' :: '"' :: doubleQuotes cs from by
          simp [doubleQuotes]]
        rw [List.cons_append, List.cons_append]
        rw [scanQuoted, if_neg (by simp)]
        rw [show (if ('"' : Char) = '"' then !true else true) = false from by simp]
        rw [scanQuoted, if_neg (by simp [Ne.symm hsep])]
        rw [show (if ('"' : Char) = '"' then !false else false) = true from by simp]
        exact ih rest
      · rw [show doubleQuotes (c :: cs) = c :: doubleQuotes cs from by
          simp [doubleQuotes, hc]]
        rw [List.cons_append]
        rw [scanQuoted, if_neg (by simp)]
        rw [show (if c = '"' then !true else true) = true from by simp [hc]]
        exact ih rest

theorem needsQuoting_false_mem {s : List Char} (h : needsQuoting s = false) :
    ∀ c ∈ s, c ≠ ',' ∧ c ≠ '"' ∧ c ≠ '\n' ∧ c ≠ '\r' := by
  intro c hc
  unfold needsQuoting at h
  rw [List.any_eq_false] at h
  have hcon := h c hc
  simp at hcon
  exact ⟨hcon.1.1.1, hcon.1.1.2, hcon.1.2, hcon.2⟩

theorem scanQuoted_escapeCell (sep : Char) (hin : sep = ',' ∨ sep = '\n') (s : List Char) :
    scanQuoted sep false (escapeCell s) = some false := by
  have hsep : sep ≠ '"' := by
    cases hin with
    | inl h => subst h; decide
    | inr h => subst h; decide
  unfold escapeCell
  by_cases hq : needsQuoting s = true
  · rw [if_pos hq]
    rw [scanQuoted, if_neg (by simp [Ne.symm hsep])]
    rw [show (if ('"' : Char) = '"' then !false else false) = true from by simp]
    rw [scanQuoted_doubleQuotes sep hsep]
    rw [scanQuoted, if_neg (by simp [Ne.symm hsep])]
    rfl
  · rw [if_neg hq]
    rw [Bool.not_eq_true] at hq
    apply scanQuoted_of_no_special
    intro c hc
    have h4 := needsQuoting_false_mem hq c hc
    cases hin with
    | inl h => subst h; exact ⟨h4.1, h4.2.1⟩
    | inr h => subst h; exact ⟨h4.2.2.1, h4.2.1⟩

theorem scanQuoted_joinSep (sep sep2 : Char) (h2 : sep2 ≠ sep) (h3 : sep2 ≠ '"') :
    ∀ pieces : List (List Char),
      (∀ p ∈ pieces, scanQuoted sep false p = some false) →
      scanQuoted sep false (joinSep sep2 pieces) = some false
  | [], _ => rfl
  | [x], hall => by
      rw [show joinSep sep2 [x] = x from rfl]
      exact hall x (List.mem_singleton.mpr rfl)
  | x :: y :: t, hall => by
      rw [show joinSep sep2 (x :: y :: t) = x ++ sep2 :: joinSep sep2 (y :: t) from rfl]
      rw [scanQuoted_append sep x false false _ (hall x (List.mem_cons_self x _))]
      rw [scanQuoted, if_neg (by simp [h2])]
      rw [show (if sep2 = '"' then !false else false) = false from by simp [h3]]
      exact scanQuoted_joinSep sep sep2 h2 h3 (y :: t)
        (fun p hp => hall p (List.mem_cons_of_mem x hp))

theorem splitQuoted_joinSep (sep : Char) :
    ∀ pieces : List (List Char), pieces ≠ [] →
      (∀ p ∈ pieces, scanQuoted sep false p = some false) →
      splitQuoted sep false (joinSep sep pieces) = pieces
  | [], hne, _ => absurd rfl hne
  | [x], _, hall => by
      rw [show joinSep sep [x] = x from rfl]
      have h := splitQuoted_append sep x false false []
        (hall x (List.mem_singleton.mpr rfl))
      rw [List.append_nil] at h
      rw [h, splitQuoted_nil]
      simp
  | x :: y :: t, _, hall => by
      rw [show joinSep sep (x :: y :: t) = x ++ sep :: joinSep sep (y :: t) from rfl]
      rw [splitQuoted_append sep x false false _ (hall x (List.mem_cons_self x _))]
      rw [splitQuoted_sep]
      rw [splitQuoted_joinSep sep (y :: t) (by simp)
        (fun p hp => hall p (List.mem_cons_of_mem x hp))]
      simp

theorem undouble_doubleQuotes : ∀ s : List Char,
    undouble (doubleQuotes s) = s ∧
    ∀ c, c ≠ '"' → undouble (c :: doubleQuotes s) = c :: s := by
  intro s
  induction s with
  | nil =>
      constructor
      · simp [doubleQuotes, undouble]
      · intro c _
        simp [doubleQuotes, undouble]
  | cons a s ih =>
      obtain ⟨ih1, ih2⟩ := ih
      constructor
      · by_cases ha : a = '"'
        · subst ha
          rw [show doubleQuotes ('"' :: s) = '"' :: '"' :: doubleQuotes s from by
            simp [doubleQuotes]]
          rw [show undouble ('"' :: '"' :: doubleQuotes s) =
            '"' :: undouble (doubleQuotes s) from by simp [undouble]]
          rw [ih1]
        · rw [show doubleQuotes (a :: s) = a :: doubleQuotes s from by
            simp [doubleQuotes, ha]]
          exact ih2 a ha
      · intro c hc
        by_cases ha : a = '"'
        · subst ha
          rw [show doubleQuotes ('"' :: s) = '"' :: '"' :: doubleQuotes s from by
            simp [doubleQuotes]]
          rw [show undouble (c :: '"' :: '"' :: doubleQuotes s) =
            c :: undouble ('"' :: '"' :: doubleQuotes s) from by simp [undouble, hc]]
          rw [show undouble ('"' :: '"' :: doubleQuotes s) =
            '"' :: undouble (doubleQuotes s) from by simp [undouble]]
          rw [ih1]
        · rw [show doubleQuotes (a :: s) = a :: doubleQuotes s from by
            simp [doubleQuotes, ha]]
          rw [show undouble (c :: a :: doubleQuotes s) =
            c :: undouble (a :: doubleQuotes s) from by simp [undouble, ha]]
          rw [ih2 a ha]

theorem unescapeCell_escapeCell (s : List Char) : unescapeCell (escapeCell s) = s := by
  unfold escapeCell
  by_cases hq : needsQuoting s = true
  · rw [if_pos hq]
    rw [show unescapeCell ('"' :: (doubleQuotes s ++ ['"'])) =
      if ('"' : Char) = '"' && (doubleQuotes s ++ ['"']).getLast? = some '"' then
        undouble (doubleQuotes s ++ ['"']).dropLast
      else '"' :: (doubleQuotes s ++ ['"']) from rfl]
    rw [if_pos (by simp [List.getLast?_concat])]
    rw [List.dropLast_concat]
    exact (undouble_doubleQuotes s).1
  · rw [if_neg hq]
    rw [Bool.not_eq_true] at hq
    cases s with
    | nil => rfl
    | cons c cs =>
        have hc : c ≠ '"' := (needsQuoting_false_mem hq c (List.mem_cons_self c cs)).2.1
        rw [show unescapeCell (c :: cs) =
          if c = '"' && cs.getLast? = some '"' then undouble cs.dropLast
          else c :: cs from rfl]
        rw [if_neg (by simp [hc])]

theorem renderRecord_scan (cells : List (List Char)) :
    scanQuoted '\n' false (renderRecord cells) = some false := by
  unfold renderRecord
  apply scanQuoted_joinSep '\n' ',' (by decide) (by decide)
  intro p hp
  rw [List.mem_map] at hp
  obtain ⟨c, _, hc⟩ := hp
  rw [← hc]
  exact scanQuoted_escapeCell '\n' (Or.inr rfl) c

theorem split_render_record (cells : List (List Char)) (hne : cells ≠ []) :
    (splitQuoted ',' false (renderRecord cells)).map unescapeCell = cells := by
  unfold renderRecord
  rw [splitQuoted_joinSep ',' (cells.map escapeCell) (by simp [hne]) ?hall]
  case hall =>
    intro p hp
    rw [List.mem_map] at hp
    obtain ⟨c, _, hc⟩ := hp
    rw [← hc]
    exact scanQuoted_escapeCell ',' (Or.inl rfl) c
  rw [List.map_map]
  have hcong : ∀ c ∈ cells, (unescapeCell ∘ escapeCell) c = id c := by
    intro c _
    exact unescapeCell_escapeCell c
  rw [List.map_congr_left hcong, List.map_id]

theorem splitQuoted_renderFile : ∀ records : List (List (List Char)),
    splitQuoted '\n' false (renderFile records) = records.map renderRecord ++ [[]]
  | [] => by
      rw [show renderFile [] = [] from rfl]
      rfl
  | rec :: rest => by
      rw [show renderFile (rec :: rest) =
        renderRecord rec ++ ('\n' :: renderFile rest) from by
          simp [renderFile]]
      rw [splitQuoted_append '\n' (renderRecord rec) false false _ (renderRecord_scan rec)]
      rw [splitQuoted_sep]
      rw [splitQuoted_renderFile rest]
      simp

theorem renderRecord_ne_nil (cells : List (List Char)) (h : 2 ≤ cells.length) :
    renderRecord cells ≠ [] := by
  cases cells with
  | nil => simp at h
  | cons x xs =>
      cases xs with
      | nil => simp at h
      | cons y t =>
          rw [show renderRecord (x :: y :: t) =
            escapeCell x ++ ',' :: joinSep ',' (escapeCell y :: t.map escapeCell) from rfl]
          simp

theorem csv_parse_render (records : List (List (List Char)))
    (h : ∀ rec ∈ records, 2 ≤ rec.length) :
    parseCsv (renderFile records) = records := by
  unfold parseCsv
  rw [splitQuoted_renderFile records, List.filter_append]
  have h1 : (records.map renderRecord).filter (fun rec => !rec.isEmpty) =
      records.map renderRecord := by
    rw [List.filter_eq_self]
    intro rec hrec
    rw [List.mem_map] at hrec
    obtain ⟨cells, hc, hrr⟩ := hrec
    rw [← hrr]
    simp only [Bool.not_eq_eq_eq_not, Bool.not_true, List.isEmpty_eq_false]
    exact renderRecord_ne_nil cells (h cells hc)
  have h2 : ([([] : List Char)]).filter (fun rec => !rec.isEmpty) = [] := rfl
  rw [h1, h2, List.append_nil, List.map_map]
  have hcong : ∀ cells ∈ records,
      ((fun rec => (splitQuoted ',' false rec).map unescapeCell) ∘ renderRecord) cells =
        id cells := by
    intro cells hc
    have hne : cells ≠ [] := by
      intro hnil
      rw [hnil] at hc
      have := h [] hc
      simp at this
    exact split_render_record cells hne
  rw [List.map_congr_left hcong, List.map_id]

/-- C9: writing any merged table to the csv snapshot format and parsing the
file back recovers the header and one record per written row verbatim — in
particular the parsed table has the same column set (the nine merged
columns, in order) and the same number of data rows as the table that was
written. -/
theorem c9_snapshot_roundtrip (rows : List MergedRow) :
    parseCsv (writeSnapshotCsv rows) =
      (mergedColumns.map String.data) :: rows.map rowCells ∧
    (parseCsv (writeSnapshotCsv rows)).length = rows.length + 1 ∧
    (parseCsv (writeSnapshotCsv rows)).head? = some (mergedColumns.map String.data) := by
  have hmain : parseCsv (writeSnapshotCsv rows) =
      (mergedColumns.map String.data) :: rows.map rowCells := by
    unfold writeSnapshotCsv
    apply csv_parse_render
    intro rec hrec
    rw [List.mem_cons] at hrec
    cases hrec with
    | inl hh =>
        rw [hh]
        simp [mergedColumns]
    | inr hd =>
        rw [List.mem_map] at hd
        obtain ⟨r, _, hr⟩ := hd
        rw [← hr]
        simp [rowCells]
  refine ⟨hmain, ?_, ?_⟩
  · rw [hmain]
    simp
  · rw [hmain]
    rfl
